import Mathlib

/-!
# Tool-calling example (cmd/example1) — shallow embedding

The program under study is `cmd/example1/main.go`: one completion request, an
optional single round of locally executed tool calls, one follow-up request,
and a final line on standard output.

Go strings are modelled by `String`.  Everything the program does to the outside
world (standard output, provider calls, invocations of `simulateWeather`, the
`messages` variable) is recorded in an explicit state so that it can be
observed by theorems.
-/

namespace Example1

/-! ## Formatting -/

/-- Go renders the operands left over after the format is exhausted as
`%!(EXTRA string=a, string=b)`. -/
def extraOperands : List String → List Char
  | [] => []
  | a :: rest =>
    "%!(EXTRA ".toList ++ ("string=" ++ a).toList ++
      (rest.map fun b => (", string=" ++ b).toList).flatten ++ [')']

/-- The fragment of `fmt.Sprintf` used by the program: literal text, the verb
`%s` applied to string operands (no flags, no width), and `%%`.  A `%s` with no
operand left renders as `%!s(MISSING)`.  Every format string of the program is
inside this fragment. -/
def sprintfAux : List Char → List String → List Char
  | [], args => extraOperands args
  | [c], args => c :: extraOperands args
  | c :: d :: fmt, args =>
    if c = '%' then
      if d = 's' then
        match args with
        | a :: rest => a.toList ++ sprintfAux fmt rest
        | [] => "%!s(MISSING)".toList ++ sprintfAux fmt []
      else if d = '%' then '%' :: sprintfAux fmt args
      else c :: sprintfAux (d :: fmt) args
    else c :: sprintfAux (d :: fmt) args

/-- The model of `fmt.Sprintf(format, operands...)` on string operands. -/
def Sprintf (format : String) (operands : List String) : String :=
  ⟨sprintfAux format.toList operands⟩

/-! ## The simulated tool -/

/-- The Go function `simulateWeather(location, unit string) string`. -/
def simulateWeather (location unit : String) : String :=
  let unit := if unit = "" then "celsius" else unit
  Sprintf "\x7b\"location\": \"%s\", \"temperature\": 22, \"unit\": \"%s\", \"condition\": \"sunny\"\x7d"
    [location, unit]

/-! ## JSON texts (RFC 8259)

A recogniser and decoder of JSON texts.  It is used to judge whether the text
returned by `simulateWeather` is a JSON text, and by the reference decoder of
tool-call arguments below. -/

/-- A JSON value; numbers keep their source text. -/
inductive JSON where
  | null
  | bool (b : Bool)
  | num (raw : String)
  | str (s : String)
  | arr (items : List JSON)
  | obj (members : List (String × JSON))

/-- The result of reading a value from a character list: the value and the
unread rest, a violation of the grammar, or exhausted recursion budget. -/
inductive ParseResult where
  | ok (value : JSON) (rest : List Char)
  | malformed
  | outOfFuel

namespace JSON

/-- Skip insignificant whitespace (space, tab, line feed, carriage return). -/
def skipWS : List Char → List Char
  | [] => []
  | c :: cs => if c = ' ' ∨ c = '\t' ∨ c = '\n' ∨ c = '\r' then skipWS cs else c :: cs

/-- The value of a hexadecimal digit. -/
def hexDigit (c : Char) : Option Nat :=
  if '0' ≤ c ∧ c ≤ '9' then some (c.toNat - '0'.toNat)
  else if 'a' ≤ c ∧ c ≤ 'f' then some (c.toNat - 'a'.toNat + 10)
  else if 'A' ≤ c ∧ c ≤ 'F' then some (c.toNat - 'A'.toNat + 10)
  else none

/-- The value of four hexadecimal digits. -/
def hex4 (a b c d : Char) : Option Nat :=
  match hexDigit a, hexDigit b, hexDigit c, hexDigit d with
  | some a, some b, some c, some d => some (((a * 16 + b) * 16 + c) * 16 + d)
  | _, _, _, _ => none

/-- The character denoted by a two-character escape. -/
def simpleEscape (c : Char) : Option Char :=
  if c = '"' then some '"'
  else if c = '\\' then some '\\'
  else if c = '/' then some '/'
  else if c = 'b' then some (Char.ofNat 8)
  else if c = 'f' then some (Char.ofNat 12)
  else if c = 'n' then some '\n'
  else if c = 'r' then some '\r'
  else if c = 't' then some '\t'
  else none

/-- The character of a code point that does not start a surrogate pair: a
surrogate on its own is U+FFFD. -/
def loneCodePoint (v : Nat) : Char :=
  if 0xD800 ≤ v ∧ v < 0xE000 then Char.ofNat 0xFFFD else Char.ofNat v

/-- Turn UTF-16 code units and code points into characters: a high surrogate
followed by a low surrogate is one character, a lone surrogate is U+FFFD. -/
def combineSurrogates : List Nat → List Char
  | [] => []
  | [v] => [loneCodePoint v]
  | v :: w :: rest =>
    if (0xD800 ≤ v ∧ v < 0xDC00) ∧ (0xDC00 ≤ w ∧ w < 0xE000) then
      Char.ofNat (0x10000 + (v - 0xD800) * 0x400 + (w - 0xDC00)) :: combineSurrogates rest
    else loneCodePoint v :: combineSurrogates (w :: rest)

/-- Read a string after its opening quotation mark: the code points of the
decoded string (newest first; a `\u` escape contributes its value as it is) and
the rest after the closing mark.  Characters below U+0020 must be escaped. -/
def parseStringAux : List Char → List Nat → Option (List Nat × List Char)
  | [], _ => none
  | c :: cs, acc =>
    if c = '"' then some (acc, cs)
    else if c = '\\' then
      match cs with
      | [] => none
      | e :: rest =>
        if e = 'u' then
          match rest with
          | h1 :: h2 :: h3 :: h4 :: rest2 =>
            match hex4 h1 h2 h3 h4 with
            | some v => parseStringAux rest2 (v :: acc)
            | none => none
          | _ => none
        else
          match simpleEscape e with
          | some ch => parseStringAux rest (ch.toNat :: acc)
          | none => none
    else if c.toNat < 0x20 then none
    else parseStringAux cs (c.toNat :: acc)

/-- Read a string after its opening quotation mark: the decoded string and the
rest after the closing mark. -/
def parseString (cs : List Char) : Option (String × List Char) :=
  match parseStringAux cs [] with
  | some (codes, rest) => some (⟨combineSurrogates codes.reverse⟩, rest)
  | none => none

/-- Split off the leading decimal digits. -/
def takeDigits : List Char → List Char × List Char
  | [] => ([], [])
  | c :: cs =>
    if '0' ≤ c ∧ c ≤ '9' then (c :: (takeDigits cs).1, (takeDigits cs).2)
    else ([], c :: cs)

/-- Read the integer part of a number: `0`, or a non-zero digit and digits. -/
def parseInt (cs : List Char) : Option (List Char × List Char) :=
  match cs with
  | '0' :: rest => some (['0'], rest)
  | _ =>
    match takeDigits cs with
    | ([], _) => none
    | (ds, rest) => some (ds, rest)

/-- Read an optional fraction: `.` and at least one digit. -/
def parseFrac (cs : List Char) : Option (List Char × List Char) :=
  match cs with
  | '.' :: rest =>
    match takeDigits rest with
    | ([], _) => none
    | (ds, rest) => some ('.' :: ds, rest)
  | _ => some ([], cs)

/-- Read an optional exponent: `e` or `E`, an optional sign, at least one
digit. -/
def parseExp (cs : List Char) : Option (List Char × List Char) :=
  match cs with
  | e :: rest =>
    if e = 'e' ∨ e = 'E' then
      let (sign, rest) : List Char × List Char :=
        match rest with
        | s :: rest2 => if s = '+' ∨ s = '-' then ([s], rest2) else ([], rest)
        | [] => ([], rest)
      match takeDigits rest with
      | ([], _) => none
      | (ds, rest) => some (e :: sign ++ ds, rest)
    else some ([], cs)
  | [] => some ([], cs)

/-- Read a number; its source text is kept. -/
def parseNumber (cs : List Char) : Option (String × List Char) :=
  let (minus, cs) : List Char × List Char :=
    match cs with
    | '-' :: rest => (['-'], rest)
    | _ => ([], cs)
  match parseInt cs with
  | none => none
  | some (int, cs) =>
    match parseFrac cs with
    | none => none
    | some (frac, cs) =>
      match parseExp cs with
      | none => none
      | some (exp, cs) => some (⟨minus ++ int ++ frac ++ exp⟩, cs)

mutual
/-- Read one value; the input starts at the value's first character. -/
def parseValue : Nat → List Char → ParseResult
  | 0, _ => .outOfFuel
  | fuel + 1, cs =>
    match cs with
    | 'n' :: 'u' :: 'l' :: 'l' :: rest => .ok .null rest
    | 't' :: 'r' :: 'u' :: 'e' :: rest => .ok (.bool true) rest
    | 'f' :: 'a' :: 'l' :: 's' :: 'e' :: rest => .ok (.bool false) rest
    | '"' :: rest =>
      match parseString rest with
      | some (s, rest) => .ok (.str s) rest
      | none => .malformed
    | '[' :: rest =>
      match skipWS rest with
      | ']' :: rest => .ok (.arr []) rest
      | rest => parseElements fuel rest []
    | '{' :: rest =>
      match skipWS rest with
      | '}' :: rest => .ok (.obj []) rest
      | rest => parseMembers fuel rest []
    | _ =>
      match parseNumber cs with
      | some (raw, rest) => .ok (.num raw) rest
      | none => .malformed
/-- Read the elements of a non-empty array up to the closing bracket. -/
def parseElements : Nat → List Char → List JSON → ParseResult
  | 0, _, _ => .outOfFuel
  | fuel + 1, cs, acc =>
    match parseValue fuel cs with
    | .ok v rest =>
      match skipWS rest with
      | ',' :: rest => parseElements fuel (skipWS rest) (acc ++ [v])
      | ']' :: rest => .ok (.arr (acc ++ [v])) rest
      | _ => .malformed
    | .malformed => .malformed
    | .outOfFuel => .outOfFuel
/-- Read the members of a non-empty object up to the closing brace. -/
def parseMembers : Nat → List Char → List (String × JSON) → ParseResult
  | 0, _, _ => .outOfFuel
  | fuel + 1, cs, acc =>
    match cs with
    | '"' :: rest =>
      match parseString rest with
      | some (key, rest) =>
        match skipWS rest with
        | ':' :: rest =>
          match parseValue fuel (skipWS rest) with
          | .ok v rest =>
            match skipWS rest with
            | ',' :: rest => parseMembers fuel (skipWS rest) (acc ++ [(key, v)])
            | '}' :: rest => .ok (.obj (acc ++ [(key, v)])) rest
            | _ => .malformed
          | .malformed => .malformed
          | .outOfFuel => .outOfFuel
        | _ => .malformed
      | none => .malformed
    | _ => .malformed
end

/-- Read a whole JSON text: one value surrounded by optional whitespace.  Every
recursive call is charged one unit of the budget, and at most two calls are
made per character read. -/
def parse (text : String) : ParseResult :=
  match parseValue (2 * text.length + 2) (skipWS text.toList) with
  | .ok v rest =>
    match skipWS rest with
    | [] => .ok v []
    | _ => .malformed
  | .malformed => .malformed
  | .outOfFuel => .outOfFuel

/-- The last member of an object with the given name that is a string. -/
def stringMember (name : String) : JSON → Option String
  | .obj members =>
    match (members.filter fun kv => kv.1 = name).getLast? with
    | some (_, .str s) => some s
    | _ => none
  | _ => none

end JSON

/-- Whether the text violates the JSON grammar. -/
def ParseResult.isMalformed : ParseResult → Bool
  | .malformed => true
  | _ => false

/-- The string member `name` of the object a text denotes, if the text is a
JSON object with such a member. -/
def ParseResult.stringMember (name : String) : ParseResult → Option String
  | .ok v _ => v.stringMember name
  | _ => none

/-! ## Data model of the provider library

The types of `github.com/mozilla-ai/any-llm-go` that the program touches.  The
library is an external dependency; only the fields the program reads or
writes are kept. -/

/-- Modelled from the spec: the message roles `anyllm.RoleUser`,
`anyllm.RoleTool`, ... are constants of the provider library, which is not part
of the repository; the spec gives the enumeration user, assistant, tool,
system. -/
inductive Role where
  | user
  | assistant
  | tool
  | system
  deriving DecidableEq, Repr

/-- Modelled from the spec: `anyllm.FinishReasonToolCalls` and its siblings are
constants of the provider library, which is not part of the repository; the
spec gives the enumeration stop, toolCalls and further unnamed reasons. -/
inductive FinishReason where
  | stop
  | toolCalls
  | other (name : String)
  deriving DecidableEq, Repr

/-- The name and argument text of a requested call (`tc.Function`). -/
structure FunctionCall where
  name : String
  arguments : String
  deriving DecidableEq, Repr

/-- A tool call requested by the model (`anyllm.ToolCall`). -/
structure ToolCall where
  id : String
  function : FunctionCall
  deriving DecidableEq, Repr

/-- A conversation message (`anyllm.Message`). -/
structure Message where
  role : Role
  content : String
  toolCalls : List ToolCall := []
  toolCallID : String := ""
  deriving DecidableEq, Repr

/-- One entry of `response.Choices`. -/
structure Choice where
  finishReason : FinishReason
  message : Message
  deriving DecidableEq, Repr

/-- The response of a completion request (`anyllm.ChatCompletion`). -/
structure ChatCompletion where
  choices : List Choice
  deriving DecidableEq, Repr

/-- The description of a callable function (`anyllm.Function`). -/
structure Function where
  name : String
  description : String
  parameters : JSON

/-- A tool offered to the model (`anyllm.Tool`). -/
structure Tool where
  type : String
  function : Function

/-- The request of a completion (`anyllm.CompletionParams`); `toolChoice` is
`none` when the field is left unset. -/
structure CompletionParams where
  model : String
  messages : List Message
  tools : List Tool
  toolChoice : Option String

/-- A completion provider: `provider.Completion(ctx, params)` as a step function
on the provider's own state `σ`, returning the response or the Go `error`
(its text). -/
abbrev Provider (σ : Type) := σ → CompletionParams → Except String ChatCompletion × σ

/-- The anonymous struct `args` that the tool-call arguments are decoded into;
both fields start as the empty string. -/
structure Args where
  location : String := ""
  unit : String := ""
  deriving DecidableEq, Repr

/-- The decoder `json.Unmarshal([]byte(text), &args)` on a fresh `args`: the
decoded struct, or the text of the returned error.  It belongs to the Go
standard library and is a parameter of the program model. -/
abbrev Unmarshal := String → Except String Args

/-- Store one object member into `args` the way `encoding/json` does for a
struct with the tags `location` and `unit`: the member name is compared ignoring
letter case, a string is stored, `null` leaves the field alone, any other value
is a type error (the first one is remembered and decoding goes on), a member of
another name is ignored. -/
def decodeMember (acc : Args × Option String) (member : String × JSON) :
    Args × Option String :=
  let key := member.1.toList.map Char.toLower
  if key = "location".toList then
    match member.2 with
    | .str s => ({ acc.1 with location := s }, acc.2)
    | .null => acc
    | _ => (acc.1, acc.2 <|> some "json: cannot unmarshal into Go struct field .location of type string")
  else if key = "unit".toList then
    match member.2 with
    | .str s => ({ acc.1 with unit := s }, acc.2)
    | .null => acc
    | _ => (acc.1, acc.2 <|> some "json: cannot unmarshal into Go struct field .unit of type string")
  else acc

/-- A reference decoder in the role of `json.Unmarshal` for `args`: the text
must be a JSON text; `null` decodes to the untouched struct, an object is
decoded member by member, any other value is a type error.  It instantiates the
decoder parameter in the concrete scenarios. -/
def jsonUnmarshal : Unmarshal := fun text =>
  match JSON.parse text with
  | .malformed => .error "invalid JSON text"
  | .outOfFuel => .error "invalid JSON text"
  | .ok .null _ => .ok {}
  | .ok (.obj members) _ =>
    match members.foldl decodeMember ({}, none) with
    | (args, none) => .ok args
    | (_, some err) => .error err
  | .ok _ _ => .error "json: cannot unmarshal into Go value of type struct"

/-! ## The program -/

/-- The package-level variable `tools`. -/
def tools : List Tool :=
  [ { type := "function"
      function :=
        { name := "get_weather"
          description := "Get the current weather for a location"
          parameters := .obj
            [ ("type", .str "object"),
              ("properties", .obj
                [ ("location", .obj
                    [ ("type", .str "string"),
                      ("description", .str "The city name, e.g., 'Paris' or 'New York'") ]),
                  ("unit", .obj
                    [ ("type", .str "string"),
                      ("enum", .arr [.str "celsius", .str "fahrenheit"]),
                      ("description", .str "Temperature unit") ]) ]),
              ("required", .arr [.str "location"]) ] } } ]

/-- How a run of the program ends: a normal return from `main`, `log.Fatal(err)`
(exit status 1), or the run-time panic of indexing an empty `Choices`. -/
inductive Exit where
  | returned
  | fatal (err : String)
  | panic
  deriving DecidableEq, Repr

/-- Everything observable about a run: the provider's state, the chunks written
to standard output, the requests sent to the provider (oldest first), the
operand pairs `simulateWeather` was invoked with (oldest first), and the local
variable `messages`. -/
structure State (σ : Type) where
  provider : σ
  stdout : List String
  calls : List CompletionParams
  invoked : List (String × String)
  messages : List Message

/-- The statements `fmt.Printf(format, operands...)`. -/
def State.printf {σ : Type} (st : State σ) (format : String) (operands : List String) :
    State σ :=
  { st with stdout := st.stdout ++ [Sprintf format operands] }

/-- The statements `fmt.Println(s)` and `fmt.Println()` (with `s` empty). -/
def State.println {σ : Type} (st : State σ) (s : String) : State σ :=
  { st with stdout := st.stdout ++ [s ++ "\n"] }

/-- One call `provider.Completion(ctx, params)`. -/
def State.completion {σ : Type} (p : Provider σ) (params : CompletionParams)
    (st : State σ) : Except String ChatCompletion × State σ :=
  ((p st.provider params).1,
    { st with provider := (p st.provider params).2, calls := st.calls ++ [params] })

/-- The message appended for a tool call whose arguments decoded to `args`. -/
def toolMessage (tc : ToolCall) (args : Args) : Message :=
  { role := .tool, content := simulateWeather args.location args.unit, toolCallID := tc.id }

/-- The loop `for _, tc := range response.Choices[0].Message.ToolCalls`.  The
first component is the error handed to `log.Fatal`, if any. -/
def toolRound {σ : Type} (unmarshal : Unmarshal) :
    List ToolCall → State σ → Option String × State σ
  | [], st => (none, st)
  | tc :: rest, st =>
    let st := st.printf "  Tool: %s\n" [tc.function.name]
    let st := st.printf "  Arguments: %s\n" [tc.function.arguments]
    match unmarshal tc.function.arguments with
    | .error unmarshalErr => (some unmarshalErr, st)
    | .ok args =>
      let result := simulateWeather args.location args.unit
      let st := { st with invoked := st.invoked ++ [(args.location, args.unit)] }
      let st := st.printf "  Result: %s\n" [result]
      let st := st.println ""
      let st := { st with messages := st.messages ++
        [{ role := .tool, content := result, toolCallID := tc.id }] }
      toolRound unmarshal rest st

/-- The parameters of the first request of `main`. -/
def firstRequest (messages : List Message) : CompletionParams :=
  { model := "gpt-5-nano", messages := messages, tools := tools, toolChoice := some "auto" }

/-- The parameters of the follow-up request of `main` (no `ToolChoice`). -/
def followUpRequest (messages : List Message) : CompletionParams :=
  { model := "gpt-5-nano", messages := messages, tools := tools, toolChoice := none }

/-- The last statement of `main`: print `response.Choices[0].Message.Content`. -/
def finish {σ : Type} (response : ChatCompletion) (st : State σ) : Exit × State σ :=
  match response.choices with
  | [] => (.panic, st)
  | choice :: _ => (.returned, st.printf "Assistant: %s\n" [choice.message.content])

/-- The body of `main` once the provider exists, with the initial value of
`messages` as an argument. -/
def mainBody {σ : Type} (unmarshal : Unmarshal) (p : Provider σ) (s : σ)
    (initial : List Message) : Exit × State σ :=
  let st : State σ :=
    { provider := s, stdout := [], calls := [], invoked := [], messages := initial }
  let st := st.println "User: What's the weather like in Paris?"
  let st := st.println ""
  match st.completion p (firstRequest st.messages) with
  | (.error err, st) => (.fatal err, st)
  | (.ok response, st) =>
    match response.choices with
    | [] => (.panic, st)
    | choice :: _ =>
      if choice.finishReason = .toolCalls then
        let st := st.println "Model is calling tools..."
        let st := { st with messages := st.messages ++ [choice.message] }
        match toolRound unmarshal choice.message.toolCalls st with
        | (some unmarshalErr, st) => (.fatal unmarshalErr, st)
        | (none, st) =>
          match st.completion p (followUpRequest st.messages) with
          | (.error err, st) => (.fatal err, st)
          | (.ok response, st) => finish response st
      else finish response st

/-- The initial value of `messages` in `main`. -/
def initialMessages : List Message :=
  [{ role := .user, content := "What's the weather like in Paris?" }]

/-- The Go function `main`; `newProvider` is the result of `openai.New()`.  When
the provider cannot be created the program stops before doing anything else. -/
def main {σ : Type} (unmarshal : Unmarshal) (newProvider : Except String σ)
    (p : Provider σ) : Exit × Option (State σ) :=
  match newProvider with
  | .error err => (.fatal err, none)
  | .ok s => ((mainBody unmarshal p s initialMessages).1,
      some (mainBody unmarshal p s initialMessages).2)

/-! ## Vocabulary of the statements -/

/-- The struct the arguments of a tool call decode to; the untouched struct
when they do not decode. -/
def decodedArgs (unmarshal : Unmarshal) (tc : ToolCall) : Args :=
  match unmarshal tc.function.arguments with
  | .ok args => args
  | .error _ => {}

/-- The tool-result message the program appends for a tool call. -/
def toolResult (unmarshal : Unmarshal) (tc : ToolCall) : Message :=
  toolMessage tc (decodedArgs unmarshal tc)

/-- The state of the program when the tool-call loop is entered: the first
request has been served, the assistant message is appended. -/
def loopEntry {σ : Type} (p : Provider σ) (s : σ) (initial : List Message)
    (assistant : Message) : State σ :=
  { provider := (p s (firstRequest initial)).2
    stdout := ["User: What's the weather like in Paris?\n", "\n", "Model is calling tools...\n"]
    calls := [firstRequest initial]
    invoked := []
    messages := initial ++ [assistant] }

/-- The tool calls of the first completion; none when the first request fails
or the completion has no choice. -/
def firstToolCalls {σ : Type} (p : Provider σ) (s : σ) (initial : List Message) :
    List ToolCall :=
  match (p s (firstRequest initial)).1 with
  | .ok response =>
    match response.choices with
    | choice :: _ => choice.message.toolCalls
    | [] => []
  | .error _ => []

/-! ## Concrete providers and inputs -/

/-- The text written by `simulateWeather "Paris" ""`. -/
def parisWeather : String :=
  "\x7b\"location\": \"Paris\", \"temperature\": 22, \"unit\": \"celsius\", \"condition\": \"sunny\"\x7d"

/-- The tool result of the scenario as the specification writes it, without
blanks. -/
def parisWeatherCompact : String :=
  "\x7b\"location\":\"Paris\",\"temperature\":22,\"unit\":\"celsius\",\"condition\":\"sunny\"\x7d"

/-- A tool call asking for the weather in Paris under the given function
name. -/
def parisCall (name : String) : ToolCall :=
  { id := "call_1", function := { name := name, arguments := "\x7b\"location\":\"Paris\"\x7d" } }

/-- An assistant message that requests the given tool calls. -/
def toolCallsMessage (calls : List ToolCall) : Message :=
  { role := .assistant, content := "", toolCalls := calls }

/-- A choice that requests the given tool calls. -/
def toolCallsChoice (calls : List ToolCall) : Choice :=
  { finishReason := .toolCalls, message := toolCallsMessage calls }

/-- A completion that requests the given tool calls. -/
def toolCallsCompletion (calls : List ToolCall) : ChatCompletion :=
  { choices := [toolCallsChoice calls] }

/-- A choice that answers with text. -/
def textChoice (reason : FinishReason) (content : String) : Choice :=
  { finishReason := reason, message := { role := .assistant, content := content } }

/-- A completion that answers with text. -/
def textCompletion (reason : FinishReason) (content : String) : ChatCompletion :=
  { choices := [textChoice reason content] }

/-- The provider of the Paris scenario; its state counts the requests served.
The first request is answered by a call of `name`, every later one by the final
sentence. -/
def scenarioProvider (name : String) : Provider Nat := fun served _ =>
  if served = 0 then (.ok (toolCallsCompletion [parisCall name]), served + 1)
  else (.ok (textCompletion .stop "It's sunny and 22°C in Paris."), served + 1)

/-- A choice with finish reason toolCalls that carries text and one tool call. -/
def insistentChoice : Choice :=
  { finishReason := .toolCalls
    message := { role := .assistant, content := "still working",
                 toolCalls := [parisCall "get_weather"] } }

/-- A provider that answers every request with a request for one tool call. -/
def insistentProvider : Provider Nat := fun served _ =>
  (.ok { choices := [insistentChoice] }, served + 1)

/-- A provider that answers at once with text. -/
def directProvider : Provider Nat := fun served _ =>
  (.ok (textCompletion .stop "Hello."), served + 1)

/-- A tool call whose argument text is not JSON. -/
def brokenCall : ToolCall :=
  { id := "call_2", function := { name := "get_weather", arguments := "\x7blocation" } }

/-- A provider whose only answer requests two tool calls, the second with
argument text that is not JSON. -/
def brokenArgumentsProvider : Provider Nat := fun served _ =>
  (.ok (toolCallsCompletion [parisCall "get_weather", brokenCall]), served + 1)

/-! ## Lemmas about formatting, the tool-call loop and the body of `main` -/

theorem sprintf_assistant (content : String) :
    Sprintf "Assistant: %s\n" [content] = "Assistant: " ++ content ++ "\n" := by
  apply String.ext
  simp [Sprintf, sprintfAux, extraOperands]

theorem toolRound_ok {σ : Type} (unmarshal : Unmarshal) (tcs : List ToolCall)
    (hdec : ∀ tc ∈ tcs, ∃ a, unmarshal tc.function.arguments = .ok a) (st : State σ) :
    (toolRound unmarshal tcs st).1 = none ∧
    (toolRound unmarshal tcs st).2.messages = st.messages ++ tcs.map (toolResult unmarshal) ∧
    (toolRound unmarshal tcs st).2.invoked =
      st.invoked ++ tcs.map (fun tc =>
        ((decodedArgs unmarshal tc).location, (decodedArgs unmarshal tc).unit)) ∧
    (toolRound unmarshal tcs st).2.calls = st.calls ∧
    (toolRound unmarshal tcs st).2.provider = st.provider := by
  induction tcs generalizing st with
  | nil => simp [toolRound]
  | cons tc rest ih =>
    obtain ⟨a, ha⟩ := hdec tc (List.mem_cons_self _ _)
    have hrest : ∀ t ∈ rest, ∃ a, unmarshal t.function.arguments = .ok a :=
      fun t ht => hdec t (List.mem_cons_of_mem _ ht)
    simp only [toolRound, ha]
    refine ⟨(ih hrest _).1, ?_, ?_, ?_, ?_⟩
    · rw [(ih hrest _).2.1]
      simp [State.printf, State.println, toolResult, toolMessage, decodedArgs, ha]
    · rw [(ih hrest _).2.2.1]
      simp [State.printf, State.println, decodedArgs, ha]
    · rw [(ih hrest _).2.2.2.1]
      simp [State.printf, State.println]
    · rw [(ih hrest _).2.2.2.2]
      simp [State.printf, State.println]

theorem toolRound_error {σ : Type} (unmarshal : Unmarshal) (pre : List ToolCall)
    (tc : ToolCall) (post : List ToolCall) (err : String)
    (hpre : ∀ t ∈ pre, ∃ a, unmarshal t.function.arguments = .ok a)
    (hfail : unmarshal tc.function.arguments = .error err) (st : State σ) :
    (toolRound unmarshal (pre ++ tc :: post) st).1 = some err ∧
    (toolRound unmarshal (pre ++ tc :: post) st).2.messages =
      st.messages ++ pre.map (toolResult unmarshal) ∧
    (toolRound unmarshal (pre ++ tc :: post) st).2.invoked =
      st.invoked ++ pre.map (fun t =>
        ((decodedArgs unmarshal t).location, (decodedArgs unmarshal t).unit)) ∧
    (toolRound unmarshal (pre ++ tc :: post) st).2.calls = st.calls ∧
    (toolRound unmarshal (pre ++ tc :: post) st).2.provider = st.provider := by
  induction pre generalizing st with
  | nil => simp [toolRound, hfail, State.printf]
  | cons t rest ih =>
    obtain ⟨a, ha⟩ := hpre t (List.mem_cons_self _ _)
    have hrest : ∀ u ∈ rest, ∃ a, unmarshal u.function.arguments = .ok a :=
      fun u hu => hpre u (List.mem_cons_of_mem _ hu)
    rw [List.cons_append]
    simp only [toolRound, ha]
    refine ⟨(ih hrest _).1, ?_, ?_, ?_, ?_⟩
    · rw [(ih hrest _).2.1]
      simp [State.printf, State.println, toolResult, toolMessage, decodedArgs, ha]
    · rw [(ih hrest _).2.2.1]
      simp [State.printf, State.println, decodedArgs, ha]
    · rw [(ih hrest _).2.2.2.1]
      simp [State.printf, State.println]
    · rw [(ih hrest _).2.2.2.2]
      simp [State.printf, State.println]

theorem toolRound_frame {σ : Type} (unmarshal : Unmarshal) (tcs : List ToolCall)
    (st : State σ) :
    (toolRound unmarshal tcs st).2.calls = st.calls ∧
    (toolRound unmarshal tcs st).2.provider = st.provider ∧
    (toolRound unmarshal tcs st).2.invoked.length ≤ st.invoked.length + tcs.length := by
  induction tcs generalizing st with
  | nil => simp [toolRound]
  | cons tc rest ih =>
    simp only [toolRound]
    cases hdec : unmarshal tc.function.arguments with
    | error e => simp [State.printf]
    | ok a =>
      simp only []
      refine ⟨?_, ?_, ?_⟩
      · rw [(ih _).1]; simp [State.printf, State.println]
      · rw [(ih _).2.1]; simp [State.printf, State.println]
      · refine le_trans (ih _).2.2 ?_
        simp [State.printf, State.println]
        omega

theorem mainBody_direct {σ : Type} (unmarshal : Unmarshal) (p : Provider σ) (s : σ)
    (initial : List Message) (response : ChatCompletion) (choice : Choice)
    (others : List Choice)
    (hfirst : (p s (firstRequest initial)).1 = .ok response)
    (hchoices : response.choices = choice :: others)
    (hreason : choice.finishReason ≠ .toolCalls) :
    mainBody unmarshal p s initial =
      (.returned,
        { provider := (p s (firstRequest initial)).2
          stdout := ["User: What's the weather like in Paris?\n", "\n",
            "Assistant: " ++ choice.message.content ++ "\n"]
          calls := [firstRequest initial]
          invoked := []
          messages := initial }) := by
  simp [mainBody, State.completion, State.println, State.printf, finish, hfirst, hchoices,
    hreason, sprintf_assistant]

theorem mainBody_toolCalls {σ : Type} (unmarshal : Unmarshal) (p : Provider σ) (s : σ)
    (initial : List Message) (response : ChatCompletion) (choice : Choice)
    (others : List Choice)
    (hfirst : (p s (firstRequest initial)).1 = .ok response)
    (hchoices : response.choices = choice :: others)
    (hreason : choice.finishReason = .toolCalls) :
    mainBody unmarshal p s initial =
      match toolRound unmarshal choice.message.toolCalls
          (loopEntry p s initial choice.message) with
      | (some unmarshalErr, st) => (.fatal unmarshalErr, st)
      | (none, st) =>
        match st.completion p (followUpRequest st.messages) with
        | (.error err, st) => (.fatal err, st)
        | (.ok response, st) => finish response st := by
  simp [mainBody, State.completion, State.println, hfirst, hchoices, hreason, loopEntry]

theorem mainBody_round_failed {σ : Type} (unmarshal : Unmarshal) (p : Provider σ) (s : σ)
    (initial : List Message) (response : ChatCompletion) (choice : Choice)
    (others : List Choice) (err : String)
    (hfirst : (p s (firstRequest initial)).1 = .ok response)
    (hchoices : response.choices = choice :: others)
    (hreason : choice.finishReason = .toolCalls)
    (hround : (toolRound unmarshal choice.message.toolCalls
      (loopEntry p s initial choice.message)).1 = some err) :
    mainBody unmarshal p s initial =
      (.fatal err,
        (toolRound unmarshal choice.message.toolCalls (loopEntry p s initial choice.message)).2) := by
  rw [mainBody_toolCalls unmarshal p s initial response choice others hfirst hchoices hreason]
  generalize toolRound unmarshal choice.message.toolCalls (loopEntry p s initial choice.message)
    = r at hround
  obtain ⟨e, st⟩ := r
  simp only at hround
  subst hround
  rfl

theorem mainBody_round_done {σ : Type} (unmarshal : Unmarshal) (p : Provider σ) (s : σ)
    (initial : List Message) (response : ChatCompletion) (choice : Choice)
    (others : List Choice) (st : State σ)
    (hfirst : (p s (firstRequest initial)).1 = .ok response)
    (hchoices : response.choices = choice :: others)
    (hreason : choice.finishReason = .toolCalls)
    (hround : toolRound unmarshal choice.message.toolCalls
      (loopEntry p s initial choice.message) = (none, st)) :
    (mainBody unmarshal p s initial).2.messages = st.messages ∧
    (mainBody unmarshal p s initial).2.invoked = st.invoked ∧
    (mainBody unmarshal p s initial).2.calls = st.calls ++ [followUpRequest st.messages] ∧
    (mainBody unmarshal p s initial).2.provider =
      (p st.provider (followUpRequest st.messages)).2 ∧
    (∀ err, (p st.provider (followUpRequest st.messages)).1 = .error err →
      (mainBody unmarshal p s initial).1 = .fatal err) ∧
    (∀ second, (p st.provider (followUpRequest st.messages)).1 = .ok second →
      second.choices = [] → (mainBody unmarshal p s initial).1 = .panic) ∧
    (∀ second answer rest, (p st.provider (followUpRequest st.messages)).1 = .ok second →
      second.choices = answer :: rest →
      (mainBody unmarshal p s initial).1 = .returned ∧
      (mainBody unmarshal p s initial).2.stdout =
        st.stdout ++ ["Assistant: " ++ answer.message.content ++ "\n"]) := by
  rw [mainBody_toolCalls unmarshal p s initial response choice others hfirst hchoices hreason,
    hround]
  simp only [State.completion]
  cases hsecond : (p st.provider (followUpRequest st.messages)).1 with
  | error e =>
    refine ⟨rfl, rfl, rfl, rfl, ?_, ?_, ?_⟩
    · intro err h; cases h; rfl
    · intro second h; cases h
    · intro second answer rest h; cases h
  | ok second =>
    cases hc : second.choices with
    | nil =>
      refine ⟨by simp [finish, hc], by simp [finish, hc], by simp [finish, hc],
        by simp [finish, hc], ?_, ?_, ?_⟩
      · intro err h; cases h
      · intro second2 h _; simp [finish, hc]
      · intro second2 answer rest h hc2
        cases h
        rw [hc] at hc2
        cases hc2
    | cons answer rest =>
      refine ⟨by simp [finish, hc, State.printf], by simp [finish, hc, State.printf],
        by simp [finish, hc, State.printf], by simp [finish, hc, State.printf], ?_, ?_, ?_⟩
      · intro err h; cases h
      · intro second2 h hc2
        cases h
        rw [hc] at hc2
        cases hc2
      · intro second2 answer2 rest2 h hc2
        cases h
        rw [hc] at hc2
        cases hc2
        simp [finish, hc, State.printf, sprintf_assistant]
theorem jsonUnmarshal_paris :
    jsonUnmarshal "\x7b\"location\":\"Paris\"\x7d" = .ok { location := "Paris" } := by
  rfl

theorem toolRound_stdout {σ : Type} (unmarshal : Unmarshal) (tcs : List ToolCall)
    (st : State σ) (hst : ∀ chunk ∈ st.stdout, chunk.toList.head? ≠ some 'A') :
    ∀ chunk ∈ (toolRound unmarshal tcs st).2.stdout, chunk.toList.head? ≠ some 'A' := by
  induction tcs generalizing st with
  | nil => simpa [toolRound] using hst
  | cons tc rest ih =>
    simp only [toolRound]
    cases hdec : unmarshal tc.function.arguments with
    | error e =>
      intro chunk hchunk
      simp only [State.printf, List.mem_append, List.mem_singleton] at hchunk
      rcases hchunk with (h | h) | h
      · exact hst chunk h
      · subst h; simp [Sprintf, sprintfAux]
      · subst h; simp [Sprintf, sprintfAux]
    | ok a =>
      apply ih
      intro chunk hchunk
      simp only [State.printf, State.println, List.mem_append, List.mem_singleton] at hchunk
      rcases hchunk with (((h | h) | h) | h) | h
      · exact hst chunk h
      · subst h; simp [Sprintf, sprintfAux]
      · subst h; simp [Sprintf, sprintfAux]
      · subst h; simp [Sprintf, sprintfAux]
      · subst h; decide

theorem first_undecodable (unmarshal : Unmarshal) (tcs : List ToolCall)
    (hbad : ∃ tc ∈ tcs, ∃ err, unmarshal tc.function.arguments = .error err) :
    ∃ (pre : List ToolCall) (tc : ToolCall) (post : List ToolCall) (err : String),
      tcs = pre ++ tc :: post ∧
      (∀ t ∈ pre, ∃ args, unmarshal t.function.arguments = .ok args) ∧
      unmarshal tc.function.arguments = .error err := by
  induction tcs with
  | nil =>
    obtain ⟨tc, htc, -⟩ := hbad
    cases htc
  | cons t rest ih =>
    cases ht : unmarshal t.function.arguments with
    | error e => exact ⟨[], t, rest, e, rfl, by simp, ht⟩
    | ok a =>
      obtain ⟨tc, htc, err, herr⟩ := hbad
      have hmem : tc ∈ rest := by
        rcases List.mem_cons.mp htc with h | h
        · subst h
          rw [ht] at herr
          cases herr
        · exact h
      obtain ⟨pre, tc2, post, err2, hsplit, hpre, hfail⟩ := ih ⟨tc, hmem, err, herr⟩
      refine ⟨t :: pre, tc2, post, err2, by rw [hsplit]; rfl, ?_, hfail⟩
      intro u hu
      rcases List.mem_cons.mp hu with h | h
      · subst h
        exact ⟨a, ht⟩
      · exact hpre u h

theorem abort_at_first_undecodable {σ : Type} (unmarshal : Unmarshal) (p : Provider σ)
    (s : σ) (initial : List Message) (response : ChatCompletion) (choice : Choice)
    (others : List Choice) (pre : List ToolCall) (tc : ToolCall) (post : List ToolCall)
    (err : String)
    (hfirst : (p s (firstRequest initial)).1 = .ok response)
    (hchoices : response.choices = choice :: others)
    (hreason : choice.finishReason = .toolCalls)
    (hcalls : choice.message.toolCalls = pre ++ tc :: post)
    (hpre : ∀ t ∈ pre, ∃ args, unmarshal t.function.arguments = .ok args)
    (hfail : unmarshal tc.function.arguments = .error err) :
    (mainBody unmarshal p s initial).1 = .fatal err ∧
    (mainBody unmarshal p s initial).2.invoked =
      pre.map (fun t => ((decodedArgs unmarshal t).location, (decodedArgs unmarshal t).unit)) ∧
    (mainBody unmarshal p s initial).2.messages =
      initial ++ [choice.message] ++ pre.map (toolResult unmarshal) ∧
    (mainBody unmarshal p s initial).2.calls = [firstRequest initial] ∧
    ∀ chunk ∈ (mainBody unmarshal p s initial).2.stdout,
      ¬ ("Assistant: ".toList <+: chunk.toList) := by
  obtain ⟨herr, hmsgs, hinv, hcs, -⟩ :=
    toolRound_error unmarshal pre tc post err hpre hfail (loopEntry p s initial choice.message)
  rw [← hcalls] at herr hmsgs hinv hcs
  rw [mainBody_round_failed unmarshal p s initial response choice others err hfirst hchoices
    hreason herr]
  refine ⟨rfl, ?_, ?_, ?_, ?_⟩
  · rw [hinv]; simp [loopEntry]
  · rw [hmsgs]; rfl
  · rw [hcs]; rfl
  · intro chunk hchunk hpfx
    have hhead := toolRound_stdout unmarshal choice.message.toolCalls
      (loopEntry p s initial choice.message) (by simp [loopEntry]) chunk hchunk
    obtain ⟨rest, hrest⟩ := hpfx
    apply hhead
    rw [← hrest]
    rfl

/-! ## The claims -/

/-- C1: when the first completion succeeds with a finish reason other than toolCalls, the
program returns normally, the only thing written after the two opening lines is the line
`Assistant: ` followed by that completion's message content, unchanged, exactly one
provider call (the first request) has been made, `simulateWeather` has not been
invoked, and `messages` is untouched. -/
theorem direct_answer_reported {σ : Type} (unmarshal : Unmarshal) (p : Provider σ) (s : σ)
    (initial : List Message) (response : ChatCompletion) (choice : Choice)
    (others : List Choice)
    (hfirst : (p s (firstRequest initial)).1 = .ok response)
    (hchoices : response.choices = choice :: others)
    (hreason : choice.finishReason ≠ .toolCalls) :
    (mainBody unmarshal p s initial).1 = .returned ∧
    (mainBody unmarshal p s initial).2.stdout =
      ["User: What's the weather like in Paris?\n", "\n",
        "Assistant: " ++ choice.message.content ++ "\n"] ∧
    (mainBody unmarshal p s initial).2.calls = [firstRequest initial] ∧
    (mainBody unmarshal p s initial).2.invoked = [] ∧
    (mainBody unmarshal p s initial).2.messages = initial := by
  rw [mainBody_direct unmarshal p s initial response choice others hfirst hchoices hreason]
  exact ⟨rfl, rfl, rfl, rfl, rfl⟩

/-- Witness of C1: the provider that answers at once with the text `Hello.`. -/
theorem direct_answer_reported_witness :
    (mainBody jsonUnmarshal directProvider 0 initialMessages).1 = .returned ∧
    (mainBody jsonUnmarshal directProvider 0 initialMessages).2.stdout =
      ["User: What's the weather like in Paris?\n", "\n", "Assistant: " ++ "Hello." ++ "\n"] ∧
    (mainBody jsonUnmarshal directProvider 0 initialMessages).2.calls =
      [firstRequest initialMessages] ∧
    (mainBody jsonUnmarshal directProvider 0 initialMessages).2.invoked = [] ∧
    (mainBody jsonUnmarshal directProvider 0 initialMessages).2.messages = initialMessages :=
  direct_answer_reported jsonUnmarshal directProvider 0 initialMessages
    (textCompletion .stop "Hello.") (textChoice .stop "Hello.") []
    rfl rfl (by decide)

/-- C2: when the first completion has finish reason toolCalls and the arguments of all
its N tool calls decode, `messages` ends as the initial history, the assistant message
and exactly N further messages; the i-th of these has role tool, the id of the i-th
requested call as toolCallID, and as content the text `simulateWeather` returns for
the decoded arguments of that call. -/
theorem tool_results_appended {σ : Type} (unmarshal : Unmarshal) (p : Provider σ) (s : σ)
    (initial : List Message) (response : ChatCompletion) (choice : Choice)
    (others : List Choice)
    (hfirst : (p s (firstRequest initial)).1 = .ok response)
    (hchoices : response.choices = choice :: others)
    (hreason : choice.finishReason = .toolCalls)
    (hdecode : ∀ tc ∈ choice.message.toolCalls,
      ∃ args, unmarshal tc.function.arguments = .ok args) :
    ∃ appended : List Message,
      (mainBody unmarshal p s initial).2.messages = initial ++ [choice.message] ++ appended ∧
      appended.length = choice.message.toolCalls.length ∧
      ∀ (i : Nat) (tc : ToolCall), choice.message.toolCalls[i]? = some tc →
        ∃ args, unmarshal tc.function.arguments = .ok args ∧
          appended[i]? = some
            { role := .tool, content := simulateWeather args.location args.unit,
              toolCallID := tc.id } := by
  obtain ⟨hnone, hmsgs, -, -, -⟩ :=
    toolRound_ok unmarshal choice.message.toolCalls hdecode (loopEntry p s initial choice.message)
  have hround : toolRound unmarshal choice.message.toolCalls
      (loopEntry p s initial choice.message) =
      (none, (toolRound unmarshal choice.message.toolCalls
        (loopEntry p s initial choice.message)).2) := by
    rw [← hnone]
  refine ⟨choice.message.toolCalls.map (toolResult unmarshal), ?_, by simp, ?_⟩
  · rw [(mainBody_round_done unmarshal p s initial response choice others _ hfirst hchoices
      hreason hround).1, hmsgs]
    rfl
  · intro i tc hi
    obtain ⟨args, hargs⟩ := hdecode tc (List.getElem?_mem hi)
    refine ⟨args, hargs, ?_⟩
    simp [List.getElem?_map, hi, toolResult, toolMessage, decodedArgs, hargs]

/-- Witness of C2: the Paris scenario, one tool call. -/
theorem tool_results_appended_witness :
    ∃ appended : List Message,
      (mainBody jsonUnmarshal (scenarioProvider "get_weather") 0 initialMessages).2.messages =
        initialMessages ++ [toolCallsMessage [parisCall "get_weather"]] ++ appended ∧
      appended.length = [parisCall "get_weather"].length ∧
      ∀ (i : Nat) (tc : ToolCall), [parisCall "get_weather"][i]? = some tc →
        ∃ args, jsonUnmarshal tc.function.arguments = .ok args ∧
          appended[i]? = some
            { role := .tool, content := simulateWeather args.location args.unit,
              toolCallID := tc.id } :=
  tool_results_appended jsonUnmarshal (scenarioProvider "get_weather") 0 initialMessages
    (toolCallsCompletion [parisCall "get_weather"]) (toolCallsChoice [parisCall "get_weather"]) []
    rfl rfl rfl
    (fun tc h => by
      have htc : tc = parisCall "get_weather" := by simpa [toolCallsChoice, toolCallsMessage] using h
      subst htc
      exact ⟨{ location := "Paris" }, jsonUnmarshal_paris⟩)

/-- C3: when the first completion has finish reason toolCalls and all tool-call arguments
decode, exactly two requests are sent; the message list of the first is the initial
history, and the message list of the follow-up request is the initial history, then the
assistant message of the first response, then one tool-result message per call in the
order of the calls.  The initial history, and the history with the assistant message,
are initial segments of what is sent: nothing is dropped, reordered or modified. -/
theorem follow_up_sends_full_history {σ : Type} (unmarshal : Unmarshal) (p : Provider σ)
    (s : σ) (initial : List Message) (response : ChatCompletion) (choice : Choice)
    (others : List Choice)
    (hfirst : (p s (firstRequest initial)).1 = .ok response)
    (hchoices : response.choices = choice :: others)
    (hreason : choice.finishReason = .toolCalls)
    (hdecode : ∀ tc ∈ choice.message.toolCalls,
      ∃ args, unmarshal tc.function.arguments = .ok args) :
    ∃ sent : List Message,
      (mainBody unmarshal p s initial).2.calls = [firstRequest initial, followUpRequest sent] ∧
      (mainBody unmarshal p s initial).2.calls =
        [{ model := "gpt-5-nano", messages := initial, tools := tools,
           toolChoice := some "auto" },
         { model := "gpt-5-nano", messages := sent, tools := tools, toolChoice := none }] ∧
      (mainBody unmarshal p s initial).2.calls.map CompletionParams.messages =
        [initial, sent] ∧
      sent = initial ++ [choice.message] ++
        choice.message.toolCalls.map (toolResult unmarshal) ∧
      sent = initial ++ [choice.message] ++
        choice.message.toolCalls.map (fun tc =>
          { role := .tool
            content := simulateWeather (decodedArgs unmarshal tc).location
              (decodedArgs unmarshal tc).unit
            toolCallID := tc.id }) ∧
      (mainBody unmarshal p s initial).2.messages = sent ∧
      initial <+: sent ∧
      initial ++ [choice.message] <+: sent := by
  obtain ⟨hnone, hmsgs, -, hcalls, -⟩ :=
    toolRound_ok unmarshal choice.message.toolCalls hdecode (loopEntry p s initial choice.message)
  have hround : toolRound unmarshal choice.message.toolCalls
      (loopEntry p s initial choice.message) =
      (none, (toolRound unmarshal choice.message.toolCalls
        (loopEntry p s initial choice.message)).2) := by
    rw [← hnone]
  obtain ⟨hmsgs2, -, hcalls2, -⟩ :=
    mainBody_round_done unmarshal p s initial response choice others _ hfirst hchoices
      hreason hround
  have hsent : (mainBody unmarshal p s initial).2.calls =
      [firstRequest initial, followUpRequest (initial ++ [choice.message] ++
        choice.message.toolCalls.map (toolResult unmarshal))] := by
    rw [hcalls2, hmsgs, hcalls]
    rfl
  refine ⟨_, hsent, ?_, ?_, rfl, rfl, ?_, ?_, ?_⟩
  · rw [hsent]
    rfl
  · rw [hsent]
    rfl
  · rw [hmsgs2, hmsgs]
    rfl
  · rw [List.append_assoc]
    exact List.prefix_append _ _
  · exact List.prefix_append _ _

/-- Witness of C3: the Paris scenario. -/
theorem follow_up_sends_full_history_witness :
    ∃ sent : List Message,
      (mainBody jsonUnmarshal (scenarioProvider "get_weather") 0 initialMessages).2.calls =
        [firstRequest initialMessages, followUpRequest sent] ∧
      (mainBody jsonUnmarshal (scenarioProvider "get_weather") 0 initialMessages).2.calls =
        [{ model := "gpt-5-nano", messages := initialMessages, tools := tools,
           toolChoice := some "auto" },
         { model := "gpt-5-nano", messages := sent, tools := tools, toolChoice := none }] ∧
      (mainBody jsonUnmarshal (scenarioProvider "get_weather") 0 initialMessages).2.calls.map
        CompletionParams.messages = [initialMessages, sent] ∧
      sent = initialMessages ++ [toolCallsMessage [parisCall "get_weather"]] ++
        [parisCall "get_weather"].map (toolResult jsonUnmarshal) ∧
      sent = initialMessages ++ [toolCallsMessage [parisCall "get_weather"]] ++
        [parisCall "get_weather"].map (fun tc =>
          { role := .tool
            content := simulateWeather (decodedArgs jsonUnmarshal tc).location
              (decodedArgs jsonUnmarshal tc).unit
            toolCallID := tc.id }) ∧
      (mainBody jsonUnmarshal (scenarioProvider "get_weather") 0 initialMessages).2.messages =
        sent ∧
      initialMessages <+: sent ∧
      initialMessages ++ [toolCallsMessage [parisCall "get_weather"]] <+: sent :=
  follow_up_sends_full_history jsonUnmarshal (scenarioProvider "get_weather") 0 initialMessages
    (toolCallsCompletion [parisCall "get_weather"]) (toolCallsChoice [parisCall "get_weather"]) []
    rfl rfl rfl
    (fun tc h => by
      have htc : tc = parisCall "get_weather" := by simpa [toolCallsChoice, toolCallsMessage] using h
      subst htc
      exact ⟨{ location := "Paris" }, jsonUnmarshal_paris⟩)

/-- C4: when the first completion has finish reason toolCalls and the arguments of some
tool call do not decode, the program ends in `log.Fatal` with the decoder's error for
the first such call: `simulateWeather` has been invoked only for the calls before it,
tool-result messages have been appended only for those, the first request is the only
provider call, and no line starting with `Assistant: ` has been written. -/
theorem malformed_arguments_abort {σ : Type} (unmarshal : Unmarshal) (p : Provider σ)
    (s : σ) (initial : List Message) (response : ChatCompletion) (choice : Choice)
    (others : List Choice)
    (hfirst : (p s (firstRequest initial)).1 = .ok response)
    (hchoices : response.choices = choice :: others)
    (hreason : choice.finishReason = .toolCalls)
    (hbad : ∃ tc ∈ choice.message.toolCalls,
      ∃ err, unmarshal tc.function.arguments = .error err) :
    ∃ (pre : List ToolCall) (tc : ToolCall) (post : List ToolCall) (err : String),
      choice.message.toolCalls = pre ++ tc :: post ∧
      (∀ t ∈ pre, ∃ args, unmarshal t.function.arguments = .ok args) ∧
      unmarshal tc.function.arguments = .error err ∧
      (mainBody unmarshal p s initial).1 = .fatal err ∧
      (mainBody unmarshal p s initial).2.invoked =
        pre.map (fun t =>
          ((decodedArgs unmarshal t).location, (decodedArgs unmarshal t).unit)) ∧
      (mainBody unmarshal p s initial).2.messages =
        initial ++ [choice.message] ++ pre.map (toolResult unmarshal) ∧
      (mainBody unmarshal p s initial).2.calls = [firstRequest initial] ∧
      ∀ chunk ∈ (mainBody unmarshal p s initial).2.stdout,
        ¬ ("Assistant: ".toList <+: chunk.toList) := by
  obtain ⟨pre, tc, post, err, hsplit, hpre, hfail⟩ :=
    first_undecodable unmarshal choice.message.toolCalls hbad
  exact ⟨pre, tc, post, err, hsplit, hpre, hfail,
    abort_at_first_undecodable unmarshal p s initial response choice others pre tc post err
      hfirst hchoices hreason hsplit hpre hfail⟩

/-- Witness of C4: two tool calls, the second with argument text that is not JSON. -/
theorem malformed_arguments_abort_witness :
    ∃ (pre : List ToolCall) (tc : ToolCall) (post : List ToolCall) (err : String),
      [parisCall "get_weather", brokenCall] = pre ++ tc :: post ∧
      (∀ t ∈ pre, ∃ args, jsonUnmarshal t.function.arguments = .ok args) ∧
      jsonUnmarshal tc.function.arguments = .error err ∧
      (mainBody jsonUnmarshal brokenArgumentsProvider 0 initialMessages).1 = .fatal err ∧
      (mainBody jsonUnmarshal brokenArgumentsProvider 0 initialMessages).2.invoked =
        pre.map (fun t =>
          ((decodedArgs jsonUnmarshal t).location, (decodedArgs jsonUnmarshal t).unit)) ∧
      (mainBody jsonUnmarshal brokenArgumentsProvider 0 initialMessages).2.messages =
        initialMessages ++ [toolCallsMessage [parisCall "get_weather", brokenCall]] ++
          pre.map (toolResult jsonUnmarshal) ∧
      (mainBody jsonUnmarshal brokenArgumentsProvider 0 initialMessages).2.calls =
        [firstRequest initialMessages] ∧
      ∀ chunk ∈ (mainBody jsonUnmarshal brokenArgumentsProvider 0 initialMessages).2.stdout,
        ¬ ("Assistant: ".toList <+: chunk.toList) :=
  malformed_arguments_abort jsonUnmarshal brokenArgumentsProvider 0 initialMessages
    (toolCallsCompletion [parisCall "get_weather", brokenCall])
    (toolCallsChoice [parisCall "get_weather", brokenCall]) []
    rfl rfl rfl
    ⟨brokenCall, by simp [toolCallsChoice, toolCallsMessage], "invalid JSON text", by rfl⟩

/-- C10: for every provider, decoder and initial history the program makes at most two
provider calls and invokes `simulateWeather` at most once per tool call of the first
completion; and when a second request is made and answered with a completion that has
a choice, the program returns and its last output is `Assistant: ` followed by that
completion's content, whatever its finish reason. -/
theorem at_most_two_provider_calls {σ : Type} (unmarshal : Unmarshal) (p : Provider σ)
    (s : σ) (initial : List Message) :
    (mainBody unmarshal p s initial).2.calls.length ≤ 2 ∧
    (mainBody unmarshal p s initial).2.invoked.length ≤ (firstToolCalls p s initial).length ∧
    ∀ (params : CompletionParams) (second : ChatCompletion) (answer : Choice)
      (rest : List Choice),
      (mainBody unmarshal p s initial).2.calls = [firstRequest initial, params] →
      (p (p s (firstRequest initial)).2 params).1 = .ok second →
      second.choices = answer :: rest →
      (mainBody unmarshal p s initial).1 = .returned ∧
      (mainBody unmarshal p s initial).2.stdout.getLast? =
        some ("Assistant: " ++ answer.message.content ++ "\n") := by
  cases hfirst : (p s (firstRequest initial)).1 with
  | error e =>
    have hrun : mainBody unmarshal p s initial =
        (.fatal e,
          { provider := (p s (firstRequest initial)).2
            stdout := ["User: What's the weather like in Paris?\n", "\n"]
            calls := [firstRequest initial], invoked := [], messages := initial }) := by
      simp [mainBody, State.completion, State.println, hfirst]
    rw [hrun]
    refine ⟨by simp, by simp, ?_⟩
    intro params second answer rest hcalls
    simp at hcalls
  | ok response =>
    cases hchoices : response.choices with
    | nil =>
      have hrun : mainBody unmarshal p s initial =
          (.panic,
            { provider := (p s (firstRequest initial)).2
              stdout := ["User: What's the weather like in Paris?\n", "\n"]
              calls := [firstRequest initial], invoked := [], messages := initial }) := by
        simp [mainBody, State.completion, State.println, hfirst, hchoices]
      rw [hrun]
      refine ⟨by simp, by simp, ?_⟩
      intro params second answer rest hcalls
      simp at hcalls
    | cons choice others =>
      have htcs : firstToolCalls p s initial = choice.message.toolCalls := by
        simp [firstToolCalls, hfirst, hchoices]
      by_cases hreason : choice.finishReason = .toolCalls
      · obtain ⟨hfc, hfp, hfi⟩ := toolRound_frame unmarshal choice.message.toolCalls
          (loopEntry p s initial choice.message)
        cases hround : toolRound unmarshal choice.message.toolCalls
            (loopEntry p s initial choice.message) with
        | mk outcome st =>
          rw [hround] at hfc hfp hfi
          simp only [loopEntry, List.length_nil, Nat.zero_add] at hfc hfp hfi
          cases outcome with
          | some err =>
            have hrun := mainBody_round_failed unmarshal p s initial response choice others err
              hfirst hchoices hreason (by rw [hround])
            rw [hround] at hrun
            rw [hrun, htcs]
            refine ⟨by simp [hfc], hfi, ?_⟩
            intro params second answer rest hcalls
            simp [hfc] at hcalls
          | none =>
            obtain ⟨-, hinv, hcalls, -, -, -, hanswer⟩ :=
              mainBody_round_done unmarshal p s initial response choice others st hfirst
                hchoices hreason hround
            rw [htcs, hinv, hcalls]
            refine ⟨by simp [hfc], hfi, ?_⟩
            intro params second answer rest hparams hsecond hanswered
            have hp : params = followUpRequest st.messages := by
              simpa [hfc] using hparams.symm
            subst hp
            rw [← hfp] at hsecond
            obtain ⟨hexit, hout⟩ := hanswer second answer rest hsecond hanswered
            exact ⟨hexit, by rw [hout]; simp⟩
      · rw [mainBody_direct unmarshal p s initial response choice others hfirst hchoices
          hreason]
        refine ⟨by simp, by simp, ?_⟩
        intro params second answer rest hcalls
        simp at hcalls

/-- Witness of C10: a provider that asks for a tool call on every request.  The second
request is made, and its content `still working` is what is reported. -/
theorem at_most_two_provider_calls_witness :
    (mainBody jsonUnmarshal insistentProvider 0 initialMessages).1 = .returned ∧
    (mainBody jsonUnmarshal insistentProvider 0 initialMessages).2.stdout.getLast? =
      some ("Assistant: " ++ "still working" ++ "\n") :=
  (at_most_two_provider_calls jsonUnmarshal insistentProvider 0 initialMessages).2.2
    (followUpRequest (mainBody jsonUnmarshal insistentProvider 0 initialMessages).2.messages)
    { choices := [insistentChoice] } insistentChoice [] (by rfl) rfl rfl
/-- Counterexample to C6: a provider whose every completion has finish reason toolCalls.
The program stops after the second request and reports the content of that second
completion, `still working`, although its finish reason is toolCalls. -/
theorem insistent_provider_not_repeated :
    (insistentProvider 0 (firstRequest initialMessages)).1 = .ok { choices := [insistentChoice] } ∧
    (insistentProvider 1 (followUpRequest
      (mainBody jsonUnmarshal insistentProvider 0 initialMessages).2.messages)).1 =
      .ok { choices := [insistentChoice] } ∧
    insistentChoice.finishReason = .toolCalls ∧
    (mainBody jsonUnmarshal insistentProvider 0 initialMessages).1 = .returned ∧
    (mainBody jsonUnmarshal insistentProvider 0 initialMessages).2.calls.length = 2 ∧
    (mainBody jsonUnmarshal insistentProvider 0 initialMessages).2.invoked = [("Paris", "")] ∧
    (mainBody jsonUnmarshal insistentProvider 0 initialMessages).2.stdout.getLast? =
      some "Assistant: still working\n" :=
  ⟨rfl, rfl, rfl, by decide, by decide, by decide, by decide⟩

/-- C6 as amended: the program makes one round trip.  When the first completion has
finish reason toolCalls and all tool-call arguments decode, `simulateWeather` is
invoked once per call in order, and the provider is called exactly once more with the
extended history; when that second request is answered with a completion that has a
choice, the program returns and its last output is `Assistant: ` followed by the content
of that second completion, with no condition on its finish reason. -/
theorem single_round_trip {σ : Type} (unmarshal : Unmarshal) (p : Provider σ) (s : σ)
    (initial : List Message) (response : ChatCompletion) (choice : Choice)
    (others : List Choice) (second : ChatCompletion) (answer : Choice) (rest : List Choice)
    (hfirst : (p s (firstRequest initial)).1 = .ok response)
    (hchoices : response.choices = choice :: others)
    (hreason : choice.finishReason = .toolCalls)
    (hdecode : ∀ tc ∈ choice.message.toolCalls,
      ∃ args, unmarshal tc.function.arguments = .ok args)
    (hsecond : (p (p s (firstRequest initial)).2
      (followUpRequest (initial ++ [choice.message] ++
        choice.message.toolCalls.map (toolResult unmarshal)))).1 = .ok second)
    (hanswer : second.choices = answer :: rest) :
    (mainBody unmarshal p s initial).1 = .returned ∧
    (mainBody unmarshal p s initial).2.invoked =
      choice.message.toolCalls.map (fun tc =>
        ((decodedArgs unmarshal tc).location, (decodedArgs unmarshal tc).unit)) ∧
    (mainBody unmarshal p s initial).2.calls =
      [firstRequest initial,
        followUpRequest (initial ++ [choice.message] ++
          choice.message.toolCalls.map (toolResult unmarshal))] ∧
    (mainBody unmarshal p s initial).2.stdout.getLast? =
      some ("Assistant: " ++ answer.message.content ++ "\n") := by
  obtain ⟨hnone, hmsgs, hinv, hcalls, hprov⟩ :=
    toolRound_ok unmarshal choice.message.toolCalls hdecode (loopEntry p s initial choice.message)
  have hround : toolRound unmarshal choice.message.toolCalls
      (loopEntry p s initial choice.message) =
      (none, (toolRound unmarshal choice.message.toolCalls
        (loopEntry p s initial choice.message)).2) := by
    rw [← hnone]
  obtain ⟨-, hinv2, hcalls2, -, -, -, hdone⟩ :=
    mainBody_round_done unmarshal p s initial response choice others _ hfirst hchoices
      hreason hround
  rw [hmsgs, hprov] at hdone
  obtain ⟨hexit, hout⟩ := hdone second answer rest hsecond hanswer
  refine ⟨hexit, ?_, ?_, ?_⟩
  · rw [hinv2, hinv]; simp [loopEntry]
  · rw [hcalls2, hcalls, hmsgs]; rfl
  · rw [hout]; simp

/-- Witness of C6 as amended: the provider that asks for a tool call on every request. -/
theorem single_round_trip_witness :
    (mainBody jsonUnmarshal insistentProvider 0 initialMessages).1 = .returned ∧
    (mainBody jsonUnmarshal insistentProvider 0 initialMessages).2.invoked =
      [parisCall "get_weather"].map (fun tc =>
        ((decodedArgs jsonUnmarshal tc).location, (decodedArgs jsonUnmarshal tc).unit)) ∧
    (mainBody jsonUnmarshal insistentProvider 0 initialMessages).2.calls =
      [firstRequest initialMessages,
        followUpRequest (initialMessages ++ [insistentChoice.message] ++
          [parisCall "get_weather"].map (toolResult jsonUnmarshal))] ∧
    (mainBody jsonUnmarshal insistentProvider 0 initialMessages).2.stdout.getLast? =
      some ("Assistant: " ++ "still working" ++ "\n") :=
  single_round_trip jsonUnmarshal insistentProvider 0 initialMessages
    { choices := [insistentChoice] } insistentChoice [] { choices := [insistentChoice] }
    insistentChoice [] rfl rfl rfl
    (fun tc h => by
      have htc : tc = parisCall "get_weather" := by simpa [insistentChoice] using h
      subst htc
      exact ⟨{ location := "Paris" }, jsonUnmarshal_paris⟩)
    rfl rfl

/-- Counterexample to C7: the first completion asks for a call of `send_email`, which is
not the name of a tool in `tools`.  The program does not fail: it invokes
`simulateWeather` with the decoded arguments, appends the tool-result message and
returns with the final answer. -/
theorem unregistered_tool_is_executed_example :
    "send_email" ∉ tools.map (fun tool => tool.function.name) ∧
    (scenarioProvider "send_email" 0 (firstRequest initialMessages)).1 =
      .ok (toolCallsCompletion [parisCall "send_email"]) ∧
    (mainBody jsonUnmarshal (scenarioProvider "send_email") 0 initialMessages).1 = .returned ∧
    (mainBody jsonUnmarshal (scenarioProvider "send_email") 0 initialMessages).2.invoked =
      [("Paris", "")] ∧
    (mainBody jsonUnmarshal (scenarioProvider "send_email") 0 initialMessages).2.messages =
      [{ role := .user, content := "What's the weather like in Paris?" },
       toolCallsMessage [parisCall "send_email"],
       { role := .tool, content := parisWeather, toolCallID := "call_1" }] :=
  ⟨by decide, rfl, by decide, by decide, by decide⟩

/-- C7 as amended: the function name of a tool call is only printed, never looked up.
When the first completion has finish reason toolCalls and all tool-call arguments
decode, a tool call whose function name is not the name of a tool in `tools` is
handled like any other: `simulateWeather` is invoked with its decoded arguments, a
tool-result message with its id is appended, and the follow-up request is made. -/
theorem unregistered_tool_is_executed {σ : Type} (unmarshal : Unmarshal) (p : Provider σ)
    (s : σ) (initial : List Message) (response : ChatCompletion) (choice : Choice)
    (others : List Choice) (tc : ToolCall) (args : Args)
    (hfirst : (p s (firstRequest initial)).1 = .ok response)
    (hchoices : response.choices = choice :: others)
    (hreason : choice.finishReason = .toolCalls)
    (hdecode : ∀ t ∈ choice.message.toolCalls,
      ∃ a, unmarshal t.function.arguments = .ok a)
    (htc : tc ∈ choice.message.toolCalls)
    (_hname : tc.function.name ∉ tools.map (fun tool => tool.function.name))
    (hargs : unmarshal tc.function.arguments = .ok args) :
    (args.location, args.unit) ∈ (mainBody unmarshal p s initial).2.invoked ∧
    (mainBody unmarshal p s initial).2.invoked.length = choice.message.toolCalls.length ∧
    ({ role := .tool, content := simulateWeather args.location args.unit,
       toolCallID := tc.id } : Message) ∈ (mainBody unmarshal p s initial).2.messages ∧
    (mainBody unmarshal p s initial).2.calls.length = 2 := by
  obtain ⟨hnone, hmsgs, hinv, hcalls, -⟩ :=
    toolRound_ok unmarshal choice.message.toolCalls hdecode (loopEntry p s initial choice.message)
  have hround : toolRound unmarshal choice.message.toolCalls
      (loopEntry p s initial choice.message) =
      (none, (toolRound unmarshal choice.message.toolCalls
        (loopEntry p s initial choice.message)).2) := by
    rw [← hnone]
  obtain ⟨hmsgs2, hinv2, hcalls2, -⟩ :=
    mainBody_round_done unmarshal p s initial response choice others _ hfirst hchoices
      hreason hround
  rw [hmsgs2, hinv2, hcalls2, hmsgs, hinv, hcalls]
  refine ⟨?_, by simp [loopEntry], ?_, by simp [loopEntry]⟩
  · simp only [loopEntry, List.nil_append, List.mem_map]
    exact ⟨tc, htc, by simp [decodedArgs, hargs]⟩
  · simp only [List.mem_append, List.mem_map]
    exact Or.inr ⟨tc, htc, by simp [toolResult, toolMessage, decodedArgs, hargs]⟩

/-- Witness of C7 as amended: the Paris scenario with the call named `send_email`. -/
theorem unregistered_tool_is_executed_witness :
    (({ location := "Paris" } : Args).location, ({ location := "Paris" } : Args).unit) ∈
      (mainBody jsonUnmarshal (scenarioProvider "send_email") 0 initialMessages).2.invoked ∧
    (mainBody jsonUnmarshal (scenarioProvider "send_email") 0 initialMessages).2.invoked.length =
      [parisCall "send_email"].length ∧
    ({ role := .tool, content := simulateWeather "Paris" "",
       toolCallID := "call_1" } : Message) ∈
      (mainBody jsonUnmarshal (scenarioProvider "send_email") 0 initialMessages).2.messages ∧
    (mainBody jsonUnmarshal (scenarioProvider "send_email") 0 initialMessages).2.calls.length = 2 :=
  unregistered_tool_is_executed jsonUnmarshal (scenarioProvider "send_email") 0 initialMessages
    (toolCallsCompletion [parisCall "send_email"]) (toolCallsChoice [parisCall "send_email"]) []
    (parisCall "send_email") { location := "Paris" } rfl rfl rfl
    (fun t h => by
      have ht : t = parisCall "send_email" := by simpa [toolCallsChoice, toolCallsMessage] using h
      subst ht
      exact ⟨{ location := "Paris" }, jsonUnmarshal_paris⟩)
    (by simp [toolCallsChoice, toolCallsMessage]) (by decide) jsonUnmarshal_paris
/-- Counterexample to C5: in the Paris scenario the program reports the final sentence,
but `messages` ends with three messages (user, assistant with the tool call, tool
result), not four: the final assistant message is never appended.  The tool-result
content is the text with a blank after each colon and comma, not the compact text. -/
theorem paris_scenario_three_messages :
    jsonUnmarshal (parisCall "get_weather").function.arguments = .ok { location := "Paris" } ∧
    (main jsonUnmarshal (.ok 0) (scenarioProvider "get_weather")).1 = .returned ∧
    (main jsonUnmarshal (.ok 0) (scenarioProvider "get_weather")).2.map State.stdout =
      some ["User: What's the weather like in Paris?\n", "\n", "Model is calling tools...\n",
        "  Tool: get_weather\n", "  Arguments: \x7b\"location\":\"Paris\"\x7d\n",
        "  Result: \x7b\"location\": \"Paris\", \"temperature\": 22, \"unit\": \"celsius\", \"condition\": \"sunny\"\x7d\n",
        "\n", "Assistant: It's sunny and 22°C in Paris.\n"] ∧
    (main jsonUnmarshal (.ok 0) (scenarioProvider "get_weather")).2.map State.messages =
      some [{ role := .user, content := "What's the weather like in Paris?" },
        toolCallsMessage [parisCall "get_weather"],
        { role := .tool, content := parisWeather, toolCallID := "call_1" }] ∧
    (main jsonUnmarshal (.ok 0) (scenarioProvider "get_weather")).2.map
      (fun st => st.messages.length) ≠ some 4 ∧
    parisWeather ≠ parisWeatherCompact :=
  ⟨by rfl, by decide, by decide, by decide, by decide, by decide⟩

/-- C5 as amended: with the initial message of `main`, a decoder that reads the argument
text as location Paris, and a provider that first asks for a `get_weather` call with
that argument text and answers the follow-up request, which carries the tool result,
with finish reason stop and the final sentence, the program returns, its last output is
`Assistant: ` followed by exactly that sentence, and `messages` holds three messages:
the user message, the assistant message with the tool call, and the tool result whose
content is the text `simulateWeather` writes (a blank after each colon and comma). -/
theorem paris_scenario {σ : Type} (unmarshal : Unmarshal) (p : Provider σ) (s : σ)
    (call : ToolCall) (first second : ChatCompletion) (others others2 : List Choice)
    (_hname : call.function.name = "get_weather")
    (hargs : call.function.arguments = "\x7b\"location\":\"Paris\"\x7d")
    (hdecode : unmarshal "\x7b\"location\":\"Paris\"\x7d" = .ok { location := "Paris" })
    (hfirst : (p s (firstRequest initialMessages)).1 = .ok first)
    (hchoices : first.choices = toolCallsChoice [call] :: others)
    (hsecond : (p (p s (firstRequest initialMessages)).2
      (followUpRequest
        [{ role := .user, content := "What's the weather like in Paris?" },
         toolCallsMessage [call],
         { role := .tool, content := parisWeather, toolCallID := call.id }])).1 = .ok second)
    (hanswer : second.choices =
      textChoice .stop "It's sunny and 22°C in Paris." :: others2) :
    (main unmarshal (.ok s) p).1 = .returned ∧
    (main unmarshal (.ok s) p).2.map (fun st => st.stdout.getLast?) =
      some (some "Assistant: It's sunny and 22°C in Paris.\n") ∧
    (main unmarshal (.ok s) p).2.map State.messages =
      some [{ role := .user, content := "What's the weather like in Paris?" },
        toolCallsMessage [call],
        { role := .tool, content := parisWeather, toolCallID := call.id }] := by
  have hcall : unmarshal call.function.arguments = .ok { location := "Paris" } := by
    rw [hargs, hdecode]
  have hdec : ∀ tc ∈ (toolCallsChoice [call]).message.toolCalls,
      ∃ args, unmarshal tc.function.arguments = .ok args := by
    intro tc htc
    have : tc = call := by simpa [toolCallsChoice, toolCallsMessage] using htc
    subst this
    exact ⟨_, hcall⟩
  have hresult : toolResult unmarshal call =
      { role := .tool, content := parisWeather, toolCallID := call.id } := by
    simp only [toolResult, toolMessage, decodedArgs, hcall]
    congr 1
  obtain ⟨hnone, hmsgs, -, -, hprov⟩ :=
    toolRound_ok unmarshal (toolCallsChoice [call]).message.toolCalls hdec
      (loopEntry p s initialMessages (toolCallsChoice [call]).message)
  have hround : toolRound unmarshal (toolCallsChoice [call]).message.toolCalls
      (loopEntry p s initialMessages (toolCallsChoice [call]).message) =
      (none, (toolRound unmarshal (toolCallsChoice [call]).message.toolCalls
        (loopEntry p s initialMessages (toolCallsChoice [call]).message)).2) := by
    rw [← hnone]
  have hsent : (toolRound unmarshal (toolCallsChoice [call]).message.toolCalls
      (loopEntry p s initialMessages (toolCallsChoice [call]).message)).2.messages =
      [{ role := .user, content := "What's the weather like in Paris?" },
       toolCallsMessage [call],
       { role := .tool, content := parisWeather, toolCallID := call.id }] := by
    rw [hmsgs]
    simp [loopEntry, initialMessages, toolCallsChoice, toolCallsMessage, hresult]
  obtain ⟨hmsgs2, -, -, -, -, -, hdone⟩ :=
    mainBody_round_done unmarshal p s initialMessages first (toolCallsChoice [call]) others _
      hfirst hchoices rfl hround
  rw [hsent, hprov] at hdone
  obtain ⟨hexit, hout⟩ := hdone second _ others2 hsecond hanswer
  refine ⟨hexit, ?_, ?_⟩
  · simp only [main, Option.map_some']
    rw [hout]
    simp [textChoice]
  · simp only [main, Option.map_some']
    rw [hmsgs2, hsent]

/-- Witness of C5 as amended: the scenario provider and the reference decoder. -/
theorem paris_scenario_witness :
    (main jsonUnmarshal (.ok 0) (scenarioProvider "get_weather")).1 = .returned ∧
    (main jsonUnmarshal (.ok 0) (scenarioProvider "get_weather")).2.map
      (fun st => st.stdout.getLast?) =
      some (some "Assistant: It's sunny and 22°C in Paris.\n") ∧
    (main jsonUnmarshal (.ok 0) (scenarioProvider "get_weather")).2.map State.messages =
      some [{ role := .user, content := "What's the weather like in Paris?" },
        toolCallsMessage [parisCall "get_weather"],
        { role := .tool, content := parisWeather, toolCallID := (parisCall "get_weather").id }] :=
  paris_scenario jsonUnmarshal (scenarioProvider "get_weather") 0 (parisCall "get_weather")
    (toolCallsCompletion [parisCall "get_weather"])
    (textCompletion .stop "It's sunny and 22°C in Paris.") [] []
    rfl rfl jsonUnmarshal_paris rfl rfl rfl rfl

/-- C8: for every location and unit, `simulateWeather` returns the fixed text with the
location and the effective unit (celsius for the empty unit, the unit itself otherwise)
inserted; the empty unit and the unit celsius give the same text; temperature 22 and
condition sunny are part of the fixed text. -/
theorem simulateWeather_text (location unit : String) :
    simulateWeather location unit =
      "\x7b\"location\": \"" ++ location ++ "\", \"temperature\": 22, \"unit\": \"" ++
        (if unit = "" then "celsius" else unit) ++ "\", \"condition\": \"sunny\"\x7d" ∧
    simulateWeather location "" = simulateWeather location "celsius" := by
  constructor
  · apply String.ext
    simp [simulateWeather, Sprintf, sprintfAux, extraOperands]
  · simp [simulateWeather]

/-- C9, evaluation at the failing input: the argument text with an escaped quotation
mark decodes to the location `a"b`; for it `simulateWeather` returns a text in which the
quotation mark is copied unescaped, and that text violates the JSON grammar.  For a
location that closes the string and opens a member, the text is JSON, but its
`location` member is not the given location. -/
theorem simulateWeather_quote_not_json :
    jsonUnmarshal "\x7b\"location\":\"a\\\"b\"\x7d" = .ok { location := "a\"b" } ∧
    simulateWeather "a\"b" "" =
      "\x7b\"location\": \"a\"b\", \"temperature\": 22, \"unit\": \"celsius\", \"condition\": \"sunny\"\x7d" ∧
    (JSON.parse (simulateWeather "a\"b" "")).isMalformed = true ∧
    (JSON.parse (simulateWeather "Paris" "")).stringMember "location" = some "Paris" ∧
    (JSON.parse (simulateWeather "x\", \"location\": \"y" "")).stringMember "location" =
      some "y" :=
  ⟨by rfl, by decide, by decide, by decide, by decide⟩
end Example1
